import Mathlib

/-!
Verification of the voxel adjacency calculator (`rhino_highlighter.py`,
"voxel to voxel relationship calculator" section, lines 82-270).

Coordinates are modelled as real numbers; Python's `x ** 0.5` on a
non-negative argument is `Real.sqrt`, and `round(x, 3)` is rounding to the
nearest thousandth.  Rhino host values that the script reads
(`rs.GetUserText(obj, "voxel_id")`, which may be absent, and
`rs.BoundingBox(obj)`, which may fail) are modelled as `Option` fields of a
`RhinoObject`; the four hard-coded layers become a list of object lists.
-/

/-- Corner point of a Rhino bounding box (fields `X`, `Y`, `Z` as in
`bbox[k].X` etc.). -/
structure Point3 where
  X : ℝ
  Y : ℝ
  Z : ℝ

/-- The data the script reads from one Rhino object: the `voxel_id` user
text (`none` when `rs.GetUserText` returns nothing; the empty string is
also falsy in `if not voxel_id`) and the bounding box corner list
(`none` when `rs.BoundingBox` fails). -/
structure RhinoObject where
  voxel_id : Option String
  bbox : Option (List Point3)

/-- One entry of `all_voxels` (lines 140-146): id and bounding-box centre.
The `guid` field of the source dict is never read afterwards and is
omitted. -/
structure Voxel where
  voxel_id : String
  x : ℝ
  y : ℝ
  z : ℝ

/-- Line 107: `ADJACENCY_THRESHOLD = 1.5`. -/
def ADJACENCY_THRESHOLD : ℝ := 1.5

/-- STEP 1 loop body for one object (lines 128-146): skip objects whose
`voxel_id` is falsy (`if not voxel_id: continue`), require a bounding box
with at least 7 corners (`if bbox and len(bbox) >= 7`), and record the
centre `((bbox[0]+bbox[6])/2)` per axis. -/
noncomputable def collect_obj (obj : RhinoObject) : Option Voxel :=
  match obj.voxel_id with
  | none => none
  | some vid =>
    if vid = "" then none
    else
      match obj.bbox with
      | none => none
      | some bbox =>
        if h : 7 ≤ bbox.length then
          some ⟨vid,
            ((bbox.get ⟨0, by omega⟩).X + (bbox.get ⟨6, by omega⟩).X) / 2,
            ((bbox.get ⟨0, by omega⟩).Y + (bbox.get ⟨6, by omega⟩).Y) / 2,
            ((bbox.get ⟨0, by omega⟩).Z + (bbox.get ⟨6, by omega⟩).Z) / 2⟩
        else none

/-- STEP 1 body for one layer (lines 128-146): the collected voxels of the
layer's objects, in object order. -/
noncomputable def collect_layer (objects : List RhinoObject) : List Voxel :=
  objects.filterMap collect_obj

/-- STEP 1 (lines 118-148): `all_voxels` accumulated over the layer list.
A layer with no objects contributes nothing (`if not objects: continue`
has no further effect). -/
noncomputable def collect_all_voxels (layers : List (List RhinoObject)) : List Voxel :=
  (layers.map collect_layer).flatten

/-- The strings returned by `determine_direction` (lines 192-207). -/
inductive Direction where
  | same
  | above
  | below
  | east
  | west
  | north
  | south
deriving DecidableEq

/-- Lines 192-207: `determine_direction(dx, dy, dz, distance)`. -/
noncomputable def determine_direction (dx dy dz distance : ℝ) : Direction :=
  if distance = 0 then Direction.same
  else
    let dx_norm := |dx| / distance
    let dy_norm := |dy| / distance
    let dz_norm := |dz| / distance
    if dz_norm > 0.7 then (if dz > 0 then Direction.above else Direction.below)
    else if dx_norm > dy_norm then (if dx > 0 then Direction.east else Direction.west)
    else (if dy > 0 then Direction.north else Direction.south)

/-- Python's `round(x, 3)` (line 184): the distance rounded to the nearest
thousandth. -/
noncomputable def round3 (x : ℝ) : ℝ := (round (x * 1000) : ℤ) / 1000

/-- One record of `neighbor_relationships` (lines 180-185), fields in
source order: `from_voxel`, `to_voxel`, `direction`, `distance`. -/
structure NeighborEdge where
  from_voxel : String
  to_voxel : String
  direction : Direction
  distance : ℝ

/-- Body of the inner loop of STEP 2 (lines 168-185): displacement
`other - voxel`, `distance = (dx**2 + dy**2 + dz**2) ** 0.5`, and the
appended record when `distance <= ADJACENCY_THRESHOLD`. -/
noncomputable def neighbor_check (voxel other : Voxel) : Option NeighborEdge :=
  let dx := other.x - voxel.x
  let dy := other.y - voxel.y
  let dz := other.z - voxel.z
  let distance := Real.sqrt (dx ^ 2 + dy ^ 2 + dz ^ 2)
  if distance ≤ ADJACENCY_THRESHOLD then
    some ⟨voxel.voxel_id, other.voxel_id, determine_direction dx dy dz distance,
      round3 distance⟩
  else none

/-- STEP 2 (lines 153-189): the doubly-enumerated loop over `all_voxels`,
skipping the diagonal `i == j` and accumulating the admitted records in
iteration order. -/
noncomputable def neighbor_relationships (all_voxels : List Voxel) : List NeighborEdge :=
  (all_voxels.enum.map fun iv =>
    all_voxels.enum.filterMap fun jo =>
      if iv.1 = jo.1 then none else neighbor_check iv.2 jo.2).flatten

/-- Lines 113-189: `calculate_neighbors()` collects the voxels (STEP 1)
and runs the neighbor pass (STEP 2) on the result. -/
noncomputable def calculate_neighbors (layers : List (List RhinoObject)) : List NeighborEdge :=
  neighbor_relationships (collect_all_voxels layers)

/-- The content `export_neighbors_to_csv` writes (lines 221-224): the
`DictWriter` field-name header followed by the relationship rows. -/
structure CsvFile where
  fieldnames : List String
  rows : List NeighborEdge

/-- Lines 210-228: the CSV export writes the header
`['from_voxel', 'to_voxel', 'direction', 'distance']` and then every
relationship row in full. -/
def export_neighbors_to_csv (relationships : List NeighborEdge) : CsvFile :=
  ⟨["from_voxel", "to_voxel", "direction", "distance"], relationships⟩

/-- The statistics printed by the final summary (lines 256-258 and
264-265): `len(relationships)` and `len(relationships) / 16116`. -/
structure RunSummary where
  total_relationships : Nat
  avg_neighbors_per_voxel : ℝ

/-- Lines 253-268: the run summary computed after a completed run.  The
divisor `16116` is a hard-coded literal in the source, not the number of
voxels actually collected. -/
noncomputable def run_summary (relationships : List NeighborEdge) : RunSummary :=
  ⟨relationships.length, (relationships.length : ℝ) / 16116⟩

/-- Everything a completed run (the `result == 6` branch, lines 247-268)
computes and reports: the collected-voxel total printed at line 148, the
relationship list, the CSV content, and the final summary. -/
structure RunOutput where
  total_voxels_collected : Nat
  relationships : List NeighborEdge
  csv : CsvFile
  summary : RunSummary

/-- The completed run as a function of the layer contents. -/
noncomputable def run (layers : List (List RhinoObject)) : RunOutput :=
  let all_voxels := collect_all_voxels layers
  let relationships := neighbor_relationships all_voxels
  ⟨all_voxels.length, relationships, export_neighbors_to_csv relationships,
    run_summary relationships⟩

/-- Modelled from the spec (section 4.4): the classifier's prescribed
tie-break order for a displacement with positive distance, written
independently of the source to compare against `determine_direction`. -/
noncomputable def classify (dx dy dz distance : ℝ) : Direction :=
  if |dz| / distance > 0.7 then (if dz > 0 then Direction.above else Direction.below)
  else if |dx| / distance > |dy| / distance then
    (if dx > 0 then Direction.east else Direction.west)
  else (if dy > 0 then Direction.north else Direction.south)

/-- Modelled from the spec (section 3): the antipodal pairing of direction
labels, `above↔below`, `east↔west`, `north↔south`; no other pair of labels
is antipodal. -/
def antipodal (a b : Direction) : Bool :=
  match a, b with
  | Direction.above, Direction.below => true
  | Direction.below, Direction.above => true
  | Direction.east, Direction.west => true
  | Direction.west, Direction.east => true
  | Direction.north, Direction.south => true
  | Direction.south, Direction.north => true
  | _, _ => false

/-- Modelled from the spec (sections 4.1 and 7): the count of input
records that the spec says are skipped and counted, namely records missing
a non-empty id.  (The spec's other invalid case, a non-finite coordinate,
has no representative in the real-number model.) -/
def skipped_invalid_count (layers : List (List RhinoObject)) : Nat :=
  (layers.map fun objects =>
    objects.countP fun obj =>
      decide (obj.voxel_id = none ∨ obj.voxel_id = some "")).sum

/-! ### Concrete inputs used to exercise the claims -/

/-- Demo voxel at the origin. -/
def vA : Voxel := ⟨"a", 0, 0, 0⟩

/-- Demo voxel one unit east of the origin. -/
def vB : Voxel := ⟨"b", 1, 0, 0⟩

/-- Demo voxel with a distinct id at the same position as `vA`. -/
def vB0 : Voxel := ⟨"b", 0, 0, 0⟩

/-- Demo voxel sharing the id of `vA` but placed at `(1, 0, 0)`. -/
def vDup : Voxel := ⟨"a", 1, 0, 0⟩

/-- A degenerate 7-corner bounding box whose centre is `(x, y, z)`. -/
def bbox_at (x y z : ℝ) : List Point3 :=
  List.replicate 7 ⟨x, y, z⟩

/-- Demo Rhino object collected as `vA`. -/
def objA : RhinoObject := ⟨some "a", some (bbox_at 0 0 0)⟩

/-- Demo Rhino object collected as `vB`. -/
def objB : RhinoObject := ⟨some "b", some (bbox_at 1 0 0)⟩

/-- Demo Rhino object with no `voxel_id` user text: an invalid record. -/
def objBad : RhinoObject := ⟨none, some (bbox_at 0 0 0)⟩

/-- Demo Rhino object with the same id as `objA` but centre `(1, 0, 0)`. -/
def objDupA : RhinoObject := ⟨some "a", some (bbox_at 1 0 0)⟩

/-! ### Basic facts about the translated definitions -/

lemma neighbor_check_eq_some {v o : Voxel} {e : NeighborEdge} :
    neighbor_check v o = some e ↔
      Real.sqrt ((o.x - v.x) ^ 2 + (o.y - v.y) ^ 2 + (o.z - v.z) ^ 2) ≤
          ADJACENCY_THRESHOLD ∧
        e = ⟨v.voxel_id, o.voxel_id,
          determine_direction (o.x - v.x) (o.y - v.y) (o.z - v.z)
            (Real.sqrt ((o.x - v.x) ^ 2 + (o.y - v.y) ^ 2 + (o.z - v.z) ^ 2)),
          round3 (Real.sqrt ((o.x - v.x) ^ 2 + (o.y - v.y) ^ 2 + (o.z - v.z) ^ 2))⟩ := by
  simp only [neighbor_check]
  split <;> simp_all [eq_comm]

lemma neighbor_check_isSome {v o : Voxel} :
    (neighbor_check v o).isSome ↔
      Real.sqrt ((o.x - v.x) ^ 2 + (o.y - v.y) ^ 2 + (o.z - v.z) ^ 2) ≤
        ADJACENCY_THRESHOLD := by
  simp only [neighbor_check]
  split <;> simp_all

lemma mem_neighbor_relationships {vs : List Voxel} {e : NeighborEdge} :
    e ∈ neighbor_relationships vs ↔
      ∃ i j : Fin vs.length, (i : ℕ) ≠ (j : ℕ) ∧
        neighbor_check (vs.get i) (vs.get j) = some e := by
  unfold neighbor_relationships
  rw [List.mem_flatten]
  constructor
  · rintro ⟨l, hl, he⟩
    rw [List.mem_map] at hl
    obtain ⟨⟨i, v⟩, hiv, rfl⟩ := hl
    rw [List.mem_filterMap] at he
    obtain ⟨⟨j, o⟩, hjo, hcheck⟩ := he
    rw [List.mem_enum_iff_getElem?] at hiv hjo
    by_cases hij : i = j
    · rw [if_pos hij] at hcheck
      cases hcheck
    · rw [if_neg hij] at hcheck
      rw [List.getElem?_eq_some] at hiv hjo
      dsimp only at hiv hjo hcheck
      obtain ⟨hi, hv⟩ := hiv
      obtain ⟨hj, ho⟩ := hjo
      refine ⟨⟨i, hi⟩, ⟨j, hj⟩, hij, ?_⟩
      simpa [List.get_eq_getElem, hv, ho] using hcheck
  · rintro ⟨i, j, hij, hcheck⟩
    refine ⟨(vs.enum.filterMap fun jo =>
      if (i : ℕ) = jo.1 then none else neighbor_check (vs.get i) jo.2), ?_, ?_⟩
    · rw [List.mem_map]
      refine ⟨((i : ℕ), vs.get i), ?_, rfl⟩
      rw [List.mem_enum_iff_getElem?]
      simp [List.getElem?_eq_getElem, i.isLt]
    · rw [List.mem_filterMap]
      refine ⟨((j : ℕ), vs.get j), ?_, ?_⟩
      · rw [List.mem_enum_iff_getElem?]
        simp [List.getElem?_eq_getElem, j.isLt]
      · rw [if_neg hij]
        exact hcheck

lemma determine_direction_pos_cases {dx dy dz d : ℝ} (hd : d ≠ 0) :
    determine_direction dx dy dz d =
      if |dz| / d > 0.7 then (if dz > 0 then Direction.above else Direction.below)
      else if |dx| / d > |dy| / d then
        (if dx > 0 then Direction.east else Direction.west)
      else (if dy > 0 then Direction.north else Direction.south) := by
  unfold determine_direction
  rw [if_neg hd]

lemma determine_direction_mem_six {dx dy dz d : ℝ} (hd : d ≠ 0) :
    determine_direction dx dy dz d = Direction.above ∨
      determine_direction dx dy dz d = Direction.below ∨
      determine_direction dx dy dz d = Direction.east ∨
      determine_direction dx dy dz d = Direction.west ∨
      determine_direction dx dy dz d = Direction.north ∨
      determine_direction dx dy dz d = Direction.south := by
  rw [determine_direction_pos_cases hd]
  split_ifs <;> tauto

lemma dist_expr_symm (v o : Voxel) :
    Real.sqrt ((v.x - o.x) ^ 2 + (v.y - o.y) ^ 2 + (v.z - o.z) ^ 2) =
      Real.sqrt ((o.x - v.x) ^ 2 + (o.y - v.y) ^ 2 + (o.z - v.z) ^ 2) := by
  congr 1
  ring

lemma round3_intCast (n : ℤ) : round3 ((n : ℝ)) = (n : ℝ) := by
  unfold round3
  rw [show ((n : ℝ)) * 1000 = ((n * 1000 : ℤ) : ℝ) by push_cast; ring, round_intCast]
  push_cast
  field_simp

lemma round3_one : round3 (1 : ℝ) = 1 := by
  simpa using round3_intCast 1

lemma round3_zero : round3 (0 : ℝ) = 0 := by
  simpa using round3_intCast 0

lemma determine_direction_antipodal {dx dy dz : ℝ}
    (hpos : 0 < dx ^ 2 + dy ^ 2 + dz ^ 2) :
    antipodal
      (determine_direction dx dy dz (Real.sqrt (dx ^ 2 + dy ^ 2 + dz ^ 2)))
      (determine_direction (-dx) (-dy) (-dz)
        (Real.sqrt (dx ^ 2 + dy ^ 2 + dz ^ 2))) = true := by
  set d := Real.sqrt (dx ^ 2 + dy ^ 2 + dz ^ 2) with hdd
  have hd : 0 < d := Real.sqrt_pos.mpr hpos
  rw [determine_direction_pos_cases (ne_of_gt hd),
    determine_direction_pos_cases (ne_of_gt hd), abs_neg, abs_neg, abs_neg]
  by_cases h1 : |dz| / d > 0.7
  · rw [if_pos h1, if_pos h1]
    have hz : dz ≠ 0 := by
      intro h0
      rw [h0] at h1
      simp at h1
      linarith
    rcases lt_or_gt_of_ne hz with hneg | hposz
    · rw [if_neg (by linarith), if_pos (by linarith)]
      rfl
    · rw [if_pos hposz, if_neg (by linarith)]
      rfl
  · rw [if_neg h1, if_neg h1]
    by_cases h2 : |dx| / d > |dy| / d
    · rw [if_pos h2, if_pos h2]
      have hx : dx ≠ 0 := by
        intro h0
        rw [h0] at h2
        simp at h2
        have hnn : 0 ≤ |dy| / d := div_nonneg (abs_nonneg _) hd.le
        linarith
      rcases lt_or_gt_of_ne hx with hneg | hposx
      · rw [if_neg (by linarith), if_pos (by linarith)]
        rfl
      · rw [if_pos hposx, if_neg (by linarith)]
        rfl
    · rw [if_neg h2, if_neg h2]
      have hy : dy ≠ 0 := by
        intro h0
        have hx0 : |dx| / d ≤ |dy| / d := not_lt.mp h2
        rw [h0] at hx0
        simp at hx0
        have hxv : |dx| ≤ 0 := by
          have := (div_le_iff₀ hd).mp hx0
          linarith
        have hdx0 : dx = 0 := abs_eq_zero.mp (le_antisymm hxv (abs_nonneg _))
        have hdz : d = |dz| := by
          rw [hdd, hdx0, h0, show ((0:ℝ) ^ 2 + 0 ^ 2 + dz ^ 2) = dz ^ 2 by ring]
          exact Real.sqrt_sq_eq_abs dz
        have h1' : |dz| / d ≤ 0.7 := not_lt.mp h1
        rw [← hdz, div_self (ne_of_gt hd)] at h1'
        norm_num at h1'
      rcases lt_or_gt_of_ne hy with hneg | hposy
      · rw [if_neg (by linarith), if_pos (by linarith)]
        rfl
      · rw [if_pos hposy, if_neg (by linarith)]
        rfl

lemma collect_layer_cons (o : RhinoObject) (objs : List RhinoObject) :
    collect_layer (o :: objs) = collect_layer [o] ++ collect_layer objs := by
  simp only [collect_layer, List.filterMap_cons, List.filterMap_nil]
  cases collect_obj o <;> simp

lemma collect_layer_append (xs ys : List RhinoObject) :
    collect_layer (xs ++ ys) = collect_layer xs ++ collect_layer ys := by
  simp [collect_layer, List.filterMap_append]

lemma collect_obj_at (s : String) (hs : ¬s = "") (x y z : ℝ) :
    collect_obj ⟨some s, some (bbox_at x y z)⟩ = some ⟨s, x, y, z⟩ := by
  simp only [collect_obj, bbox_at]
  rw [if_neg hs]
  rw [dif_pos (by simp)]
  simp only [List.get_eq_getElem, List.getElem_replicate]
  simp [add_self_div_two]

lemma collect_obj_objA : collect_obj objA = some vA := by
  simpa [objA, vA] using collect_obj_at "a" (by decide) 0 0 0

lemma collect_obj_objB : collect_obj objB = some vB := by
  simpa [objB, vB] using collect_obj_at "b" (by decide) 1 0 0

lemma collect_obj_objDupA : collect_obj objDupA = some vDup := by
  simpa [objDupA, vDup] using collect_obj_at "a" (by decide) 1 0 0

lemma collect_obj_objBad : collect_obj objBad = none := by
  simp [collect_obj, objBad]

lemma dd_east_demo : determine_direction 1 0 0 1 = Direction.east := by
  rw [determine_direction_pos_cases (by norm_num)]
  norm_num

lemma dd_west_demo : determine_direction (-1) 0 0 1 = Direction.west := by
  rw [determine_direction_pos_cases (by norm_num)]
  norm_num

lemma dd_same_demo : determine_direction 0 0 0 0 = Direction.same := by
  simp [determine_direction]

lemma check_vA_vB : neighbor_check vA vB = some ⟨"a", "b", Direction.east, 1⟩ := by
  rw [neighbor_check_eq_some]
  simp only [vA, vB]
  norm_num [Real.sqrt_one, ADJACENCY_THRESHOLD, dd_east_demo, round3_one]

lemma check_vB_vA : neighbor_check vB vA = some ⟨"b", "a", Direction.west, 1⟩ := by
  rw [neighbor_check_eq_some]
  simp only [vA, vB]
  norm_num [Real.sqrt_one, ADJACENCY_THRESHOLD, dd_west_demo, round3_one]

lemma check_vA_vB0 : neighbor_check vA vB0 = some ⟨"a", "b", Direction.same, 0⟩ := by
  rw [neighbor_check_eq_some]
  simp only [vA, vB0]
  norm_num [Real.sqrt_zero, ADJACENCY_THRESHOLD, dd_same_demo, round3_zero]

lemma check_vB0_vA : neighbor_check vB0 vA = some ⟨"b", "a", Direction.same, 0⟩ := by
  rw [neighbor_check_eq_some]
  simp only [vA, vB0]
  norm_num [Real.sqrt_zero, ADJACENCY_THRESHOLD, dd_same_demo, round3_zero]

lemma nr_demo_AB : neighbor_relationships [vA, vB] =
    [⟨"a", "b", Direction.east, 1⟩, ⟨"b", "a", Direction.west, 1⟩] := by
  have he : ([vA, vB]).enum = [(0, vA), (1, vB)] := rfl
  simp only [neighbor_relationships, he]
  simp [check_vA_vB, check_vB_vA]

lemma nr_demo_AB0 : neighbor_relationships [vA, vB0] =
    [⟨"a", "b", Direction.same, 0⟩, ⟨"b", "a", Direction.same, 0⟩] := by
  have he : ([vA, vB0]).enum = [(0, vA), (1, vB0)] := rfl
  simp only [neighbor_relationships, he]
  simp [check_vA_vB0, check_vB0_vA]

lemma nr_demo_dup : neighbor_relationships [vA, vDup] =
    [⟨"a", "a", Direction.east, 1⟩, ⟨"a", "a", Direction.west, 1⟩] := by
  have hc1 : neighbor_check vA vDup = some ⟨"a", "a", Direction.east, 1⟩ := by
    rw [neighbor_check_eq_some]
    simp only [vA, vDup]
    norm_num [Real.sqrt_one, ADJACENCY_THRESHOLD, dd_east_demo, round3_one]
  have hc2 : neighbor_check vDup vA = some ⟨"a", "a", Direction.west, 1⟩ := by
    rw [neighbor_check_eq_some]
    simp only [vA, vDup]
    norm_num [Real.sqrt_one, ADJACENCY_THRESHOLD, dd_west_demo, round3_one]
  have he : ([vA, vDup]).enum = [(0, vA), (1, vDup)] := rfl
  simp only [neighbor_relationships, he]
  simp [hc1, hc2]

lemma nr_single (v : Voxel) : neighbor_relationships [v] = [] := by
  have he : ([v]).enum = [(0, v)] := rfl
  simp [neighbor_relationships, he]

lemma collect_all_single (objs : List RhinoObject) :
    collect_all_voxels [objs] = collect_layer objs := by
  simp [collect_all_voxels]

lemma collect_demo_AB : collect_all_voxels [[objA, objB]] = [vA, vB] := by
  rw [collect_all_single]
  simp [collect_layer, collect_obj_objA, collect_obj_objB]

lemma collect_demo_A : collect_all_voxels [[objA]] = [vA] := by
  rw [collect_all_single]
  simp [collect_layer, collect_obj_objA]

lemma collect_demo_A_bad : collect_all_voxels [[objA, objBad]] = [vA] := by
  rw [collect_all_single]
  simp [collect_layer, collect_obj_objA, collect_obj_objBad]

lemma collect_demo_dup : collect_all_voxels [[objA, objDupA]] = [vA, vDup] := by
  rw [collect_all_single]
  simp [collect_layer, collect_obj_objA, collect_obj_objDupA]

lemma run_congr {l1 l2 : List (List RhinoObject)}
    (h : collect_all_voxels l1 = collect_all_voxels l2) : run l1 = run l2 := by
  unfold run
  rw [h]

lemma collect_layer_replicate_objA (n : ℕ) :
    collect_layer (List.replicate n objA) = List.replicate n vA := by
  induction n with
  | zero => simp [collect_layer]
  | succ k ih =>
    rw [List.replicate_succ, collect_layer_cons, ih, List.replicate_succ]
    simp [collect_layer, collect_obj_objA]

/-! ### The claims -/

/-- C1: for every registered cell set and every ordered pair of distinct
registered cells `(A, B)` (distinct loop indices `i ≠ j`), the pair is
admitted as a directed edge exactly when the exact Euclidean distance
between the two positions is at most `ADJACENCY_THRESHOLD` — so a pair at
distance exactly the threshold is admitted and a pair strictly beyond it
is not — and every admitted edge is emitted into the relationship list. -/
theorem adjacency_threshold_iff (vs : List Voxel) (i j : Fin vs.length)
    (hij : (i : ℕ) ≠ (j : ℕ)) :
    ((neighbor_check (vs.get i) (vs.get j)).isSome ↔
      Real.sqrt (((vs.get j).x - (vs.get i).x) ^ 2 +
        ((vs.get j).y - (vs.get i).y) ^ 2 +
        ((vs.get j).z - (vs.get i).z) ^ 2) ≤ ADJACENCY_THRESHOLD) ∧
    ∀ e : NeighborEdge, neighbor_check (vs.get i) (vs.get j) = some e →
      e ∈ neighbor_relationships vs := by
  refine ⟨neighbor_check_isSome, ?_⟩
  intro e he
  exact mem_neighbor_relationships.mpr ⟨i, j, hij, he⟩

/-- Witness for C1 at the two demo voxels one unit apart. -/
theorem adjacency_threshold_iff_witness :
    (⟨"a", "b", Direction.east, 1⟩ : NeighborEdge) ∈
      neighbor_relationships [vA, vB] := by
  have h := adjacency_threshold_iff [vA, vB] ⟨0, by norm_num⟩ ⟨1, by norm_num⟩
    (by norm_num)
  exact h.2 _ check_vA_vB

/-- C2 (amended): for every registered cell set and distinct loop indices
`i ≠ j`, the edge for `(i, j)` is admitted exactly when the edge for
`(j, i)` is, both are emitted, and they carry equal rounded distances;
their labels are exactly antipodal whenever the two positions differ,
while for coincident positions both labels are `'same'` (the uncorrected
claim asserts antipodal labels for all distinct pairs). -/
theorem symmetry_antipodal (vs : List Voxel) (i j : Fin vs.length)
    (hij : (i : ℕ) ≠ (j : ℕ)) :
    ((neighbor_check (vs.get i) (vs.get j)).isSome ↔
      (neighbor_check (vs.get j) (vs.get i)).isSome) ∧
    ∀ e e' : NeighborEdge,
      neighbor_check (vs.get i) (vs.get j) = some e →
      neighbor_check (vs.get j) (vs.get i) = some e' →
      e ∈ neighbor_relationships vs ∧ e' ∈ neighbor_relationships vs ∧
      e.distance = e'.distance ∧
      (((vs.get i).x ≠ (vs.get j).x ∨ (vs.get i).y ≠ (vs.get j).y ∨
          (vs.get i).z ≠ (vs.get j).z) →
        antipodal e.direction e'.direction = true) ∧
      ((vs.get i).x = (vs.get j).x → (vs.get i).y = (vs.get j).y →
        (vs.get i).z = (vs.get j).z →
        e.direction = Direction.same ∧ e'.direction = Direction.same) := by
  constructor
  · rw [neighbor_check_isSome, neighbor_check_isSome,
      dist_expr_symm (vs.get j) (vs.get i)]
  · intro e e' he he'
    rw [neighbor_check_eq_some] at he he'
    obtain ⟨hle, rfl⟩ := he
    obtain ⟨hle', rfl⟩ := he'
    refine ⟨?_, ?_, ?_, ?_, ?_⟩
    · exact mem_neighbor_relationships.mpr
        ⟨i, j, hij, neighbor_check_eq_some.mpr ⟨hle, rfl⟩⟩
    · exact mem_neighbor_relationships.mpr
        ⟨j, i, Ne.symm hij, neighbor_check_eq_some.mpr ⟨hle', rfl⟩⟩
    · show round3 _ = round3 _
      rw [dist_expr_symm (vs.get i) (vs.get j)]
    · intro hdiff
      have hpos : 0 < ((vs.get j).x - (vs.get i).x) ^ 2 +
          ((vs.get j).y - (vs.get i).y) ^ 2 +
          ((vs.get j).z - (vs.get i).z) ^ 2 := by
        rcases hdiff with hx | hy | hz
        · have h2 : (vs.get j).x - (vs.get i).x ≠ 0 :=
            sub_ne_zero.mpr (Ne.symm hx)
          have h3 : 0 < ((vs.get j).x - (vs.get i).x) ^ 2 := by
            rw [sq]
            exact mul_self_pos.mpr h2
          nlinarith [sq_nonneg ((vs.get j).y - (vs.get i).y),
            sq_nonneg ((vs.get j).z - (vs.get i).z)]
        · have h2 : (vs.get j).y - (vs.get i).y ≠ 0 :=
            sub_ne_zero.mpr (Ne.symm hy)
          have h3 : 0 < ((vs.get j).y - (vs.get i).y) ^ 2 := by
            rw [sq]
            exact mul_self_pos.mpr h2
          nlinarith [sq_nonneg ((vs.get j).x - (vs.get i).x),
            sq_nonneg ((vs.get j).z - (vs.get i).z)]
        · have h2 : (vs.get j).z - (vs.get i).z ≠ 0 :=
            sub_ne_zero.mpr (Ne.symm hz)
          have h3 : 0 < ((vs.get j).z - (vs.get i).z) ^ 2 := by
            rw [sq]
            exact mul_self_pos.mpr h2
          nlinarith [sq_nonneg ((vs.get j).x - (vs.get i).x),
            sq_nonneg ((vs.get j).y - (vs.get i).y)]
      have hant := determine_direction_antipodal hpos
      show antipodal _ _ = true
      rw [dist_expr_symm (vs.get i) (vs.get j)]
      simpa [neg_sub] using hant
    · intro hx hy hz
      have hx0 : (vs.get j).x - (vs.get i).x = 0 := by rw [hx, sub_self]
      have hy0 : (vs.get j).y - (vs.get i).y = 0 := by rw [hy, sub_self]
      have hz0 : (vs.get j).z - (vs.get i).z = 0 := by rw [hz, sub_self]
      have hx0' : (vs.get i).x - (vs.get j).x = 0 := by rw [hx, sub_self]
      have hy0' : (vs.get i).y - (vs.get j).y = 0 := by rw [hy, sub_self]
      have hz0' : (vs.get i).z - (vs.get j).z = 0 := by rw [hz, sub_self]
      constructor
      · show determine_direction _ _ _ _ = Direction.same
        rw [hx0, hy0, hz0, show ((0:ℝ) ^ 2 + 0 ^ 2 + 0 ^ 2) = 0 by norm_num,
          Real.sqrt_zero]
        exact dd_same_demo
      · show determine_direction _ _ _ _ = Direction.same
        rw [hx0', hy0', hz0', show ((0:ℝ) ^ 2 + 0 ^ 2 + 0 ^ 2) = 0 by norm_num,
          Real.sqrt_zero]
        exact dd_same_demo

/-- Witness for the amended C2 at the demo pair one unit apart: both
directed edges are emitted and their labels are antipodal. -/
theorem symmetry_antipodal_witness :
    antipodal Direction.east Direction.west = true ∧
    (⟨"a", "b", Direction.east, 1⟩ : NeighborEdge) ∈
      neighbor_relationships [vA, vB] ∧
    (⟨"b", "a", Direction.west, 1⟩ : NeighborEdge) ∈
      neighbor_relationships [vA, vB] := by
  have h := (symmetry_antipodal [vA, vB] ⟨0, by norm_num⟩ ⟨1, by norm_num⟩
    (by norm_num)).2 ⟨"a", "b", Direction.east, 1⟩ ⟨"b", "a", Direction.west, 1⟩
    check_vA_vB check_vB_vA
  have hant := h.2.2.2.1 (Or.inl (by simp [vA, vB]))
  exact ⟨by simpa using hant, h.1, h.2.1⟩

/-- Counterexample to C2 as stated: two distinct cells with coincident
positions produce both directed edges, but both carry the label `'same'`,
which is not an antipodal pair of labels. -/
theorem symmetry_antipodal_cex :
    neighbor_check vA vB0 = some ⟨"a", "b", Direction.same, 0⟩ ∧
    neighbor_check vB0 vA = some ⟨"b", "a", Direction.same, 0⟩ ∧
    (⟨"a", "b", Direction.same, 0⟩ : NeighborEdge) ∈
      neighbor_relationships [vA, vB0] ∧
    (⟨"b", "a", Direction.same, 0⟩ : NeighborEdge) ∈
      neighbor_relationships [vA, vB0] ∧
    antipodal Direction.same Direction.same = false := by
  refine ⟨check_vA_vB0, check_vB0_vA, ?_, ?_, rfl⟩
  · rw [nr_demo_AB0]
    simp
  · rw [nr_demo_AB0]
    simp

/-- C3: for a positive `distance` argument the source classifier follows
exactly the spec's tie-break order, as captured by the spec-side
`classify`. -/
theorem classifier_tie_break (dx dy dz distance : ℝ) (h : 0 < distance) :
    determine_direction dx dy dz distance = classify dx dy dz distance := by
  rw [determine_direction_pos_cases (ne_of_gt h)]
  rfl

/-- Witness for C3 at the displacement `(1, 0, 0)` with distance `1`. -/
theorem classifier_tie_break_witness :
    (0:ℝ) < 1 ∧ determine_direction 1 0 0 1 = classify 1 0 0 1 :=
  ⟨by norm_num, classifier_tie_break 1 0 0 1 (by norm_num)⟩

/-- C4: when the registered cells carry pairwise-distinct ids, no emitted
edge has `from_voxel` equal to `to_voxel`. -/
theorem no_self_edges (vs : List Voxel) (h : (vs.map Voxel.voxel_id).Nodup) :
    ∀ e ∈ neighbor_relationships vs, e.from_voxel ≠ e.to_voxel := by
  intro e he
  obtain ⟨i, j, hij, hcheck⟩ := mem_neighbor_relationships.mp he
  rw [neighbor_check_eq_some] at hcheck
  obtain ⟨-, rfl⟩ := hcheck
  intro hids
  apply hij
  have hi : (i : ℕ) < (vs.map Voxel.voxel_id).length := by
    simp only [List.length_map]
    exact i.isLt
  have hj : (j : ℕ) < (vs.map Voxel.voxel_id).length := by
    simp only [List.length_map]
    exact j.isLt
  have hmap : (vs.map Voxel.voxel_id)[(i : ℕ)] = (vs.map Voxel.voxel_id)[(j : ℕ)] := by
    simpa [List.getElem_map, List.get_eq_getElem] using hids
  exact (h.getElem_inj_iff).mp hmap

/-- Witness for C4 at the demo pair with distinct ids, instantiated at the
emitted east edge. -/
theorem no_self_edges_witness :
    (⟨"a", "b", Direction.east, 1⟩ : NeighborEdge).from_voxel ≠
      (⟨"a", "b", Direction.east, 1⟩ : NeighborEdge).to_voxel :=
  no_self_edges [vA, vB] (by simp [vA, vB]) ⟨"a", "b", Direction.east, 1⟩
    (by rw [nr_demo_AB]; simp)

/-- Counterexample to C5: with two valid records sharing the id `"a"` (the
first at the origin, the last at `(1, 0, 0)`), the code registers both
cells and emits two edges, both involving the first record's cell — while
last-write-wins registration, keeping only the final record's cell, would
emit no edge at all; no warning is produced anywhere in the computation. -/
theorem duplicate_ids_both_participate :
    calculate_neighbors [[objA, objDupA]] =
      [⟨"a", "a", Direction.east, 1⟩, ⟨"a", "a", Direction.west, 1⟩] ∧
    neighbor_relationships [vDup] = [] := by
  constructor
  · unfold calculate_neighbors
    rw [collect_demo_dup]
    exact nr_demo_dup
  · exact nr_single vDup

/-- C5 (amended): duplicate ids are not resolved at all — registration
applies the per-record validity rule to each record independently of every
other record, so all records with a duplicated id are registered and
participate in neighbor computation, and no warning is issued. -/
theorem duplicate_registration_record_local (xs ys : List RhinoObject)
    (r : RhinoObject) :
    collect_layer (xs ++ r :: ys) =
      collect_layer xs ++ collect_layer [r] ++ collect_layer ys := by
  rw [collect_layer_append, collect_layer_cons, List.append_assoc]

/-- C6: the CSV header names exactly the four fields `from_voxel`,
`to_voxel`, `direction`, `distance` in this order, and every exported row
is exactly the four-field record of some admitted ordered pair whose
`distance` value is the true Euclidean distance rounded to three
decimals. -/
theorem edge_record_fields (vs : List Voxel) :
    (export_neighbors_to_csv (neighbor_relationships vs)).fieldnames =
      ["from_voxel", "to_voxel", "direction", "distance"] ∧
    ∀ e ∈ (export_neighbors_to_csv (neighbor_relationships vs)).rows,
      ∃ i j : Fin vs.length, (i : ℕ) ≠ (j : ℕ) ∧
        e = ⟨(vs.get i).voxel_id, (vs.get j).voxel_id,
          determine_direction ((vs.get j).x - (vs.get i).x)
            ((vs.get j).y - (vs.get i).y) ((vs.get j).z - (vs.get i).z)
            (Real.sqrt (((vs.get j).x - (vs.get i).x) ^ 2 +
              ((vs.get j).y - (vs.get i).y) ^ 2 +
              ((vs.get j).z - (vs.get i).z) ^ 2)),
          round3 (Real.sqrt (((vs.get j).x - (vs.get i).x) ^ 2 +
            ((vs.get j).y - (vs.get i).y) ^ 2 +
            ((vs.get j).z - (vs.get i).z) ^ 2))⟩ := by
  refine ⟨rfl, ?_⟩
  intro e he
  obtain ⟨i, j, hij, hcheck⟩ := mem_neighbor_relationships.mp he
  rw [neighbor_check_eq_some] at hcheck
  exact ⟨i, j, hij, hcheck.2⟩

/-- Witness for C6 at the demo pair: the emitted east edge is exactly the
four-field record of the pair `(0, 1)`. -/
theorem edge_record_fields_witness :
    ∃ i j : Fin ([vA, vB]).length, (i : ℕ) ≠ (j : ℕ) ∧
      (⟨"a", "b", Direction.east, 1⟩ : NeighborEdge) =
        ⟨(([vA, vB]).get i).voxel_id, (([vA, vB]).get j).voxel_id,
          determine_direction ((([vA, vB]).get j).x - (([vA, vB]).get i).x)
            ((([vA, vB]).get j).y - (([vA, vB]).get i).y)
            ((([vA, vB]).get j).z - (([vA, vB]).get i).z)
            (Real.sqrt (((([vA, vB]).get j).x - (([vA, vB]).get i).x) ^ 2 +
              ((([vA, vB]).get j).y - (([vA, vB]).get i).y) ^ 2 +
              ((([vA, vB]).get j).z - (([vA, vB]).get i).z) ^ 2)),
          round3 (Real.sqrt (((([vA, vB]).get j).x - (([vA, vB]).get i).x) ^ 2 +
            ((([vA, vB]).get j).y - (([vA, vB]).get i).y) ^ 2 +
            ((([vA, vB]).get j).z - (([vA, vB]).get i).z) ^ 2))⟩ :=
  (edge_record_fields [vA, vB]).2 ⟨"a", "b", Direction.east, 1⟩
    (by simp [export_neighbors_to_csv, nr_demo_AB])

/-- C7 (amended): a record with a falsy id is skipped — it contributes no
cell and hence no edges, and the rest of the input is processed exactly as
if the record were absent; the code neither counts such skipped records
nor checks coordinates for finiteness. -/
theorem invalid_record_skipped (xs ys : List RhinoObject) (r : RhinoObject)
    (h : r.voxel_id = none ∨ r.voxel_id = some "") :
    collect_layer (xs ++ r :: ys) = collect_layer (xs ++ ys) ∧
    neighbor_relationships (collect_layer (xs ++ r :: ys)) =
      neighbor_relationships (collect_layer (xs ++ ys)) := by
  have hnone : collect_obj r = none := by
    rcases h with h | h <;> simp [collect_obj, h]
  have hc : collect_layer (xs ++ r :: ys) = collect_layer (xs ++ ys) := by
    rw [collect_layer_append, collect_layer_append, collect_layer_cons]
    simp [collect_layer, hnone]
  exact ⟨hc, by rw [hc]⟩

/-- Witness for the amended C7: dropping the id-less demo record leaves
the collected cells unchanged. -/
theorem invalid_record_skipped_witness :
    (objBad.voxel_id = none ∨ objBad.voxel_id = some "") ∧
    collect_layer ([objA] ++ objBad :: []) = collect_layer ([objA] ++ []) :=
  ⟨Or.inl rfl, (invalid_record_skipped [objA] [] objBad (Or.inl rfl)).1⟩

/-- Counterexample to C7's "counted" conjunct: appending an invalid record
to a run's input changes nothing in the run's computed output — the
collected-voxel total, the relationship list, the CSV content and the
final summary are all identical — although the spec-side count of skipped
invalid records differs, so that count is neither computed nor reported by
the code. -/
theorem invalid_records_not_counted :
    run [[objA, objBad]] = run [[objA]] ∧
    skipped_invalid_count [[objA, objBad]] ≠ skipped_invalid_count [[objA]] := by
  refine ⟨run_congr ?_, by decide⟩
  rw [collect_demo_A_bad, collect_demo_A]

lemma sq_sum_pos_of_coord_diff {v o : Voxel}
    (hdiff : v.x ≠ o.x ∨ v.y ≠ o.y ∨ v.z ≠ o.z) :
    0 < (o.x - v.x) ^ 2 + (o.y - v.y) ^ 2 + (o.z - v.z) ^ 2 := by
  rcases hdiff with hx | hy | hz
  · have h2 : o.x - v.x ≠ 0 := sub_ne_zero.mpr (Ne.symm hx)
    have h3 : 0 < (o.x - v.x) ^ 2 := by
      rw [sq]
      exact mul_self_pos.mpr h2
    nlinarith [sq_nonneg (o.y - v.y), sq_nonneg (o.z - v.z)]
  · have h2 : o.y - v.y ≠ 0 := sub_ne_zero.mpr (Ne.symm hy)
    have h3 : 0 < (o.y - v.y) ^ 2 := by
      rw [sq]
      exact mul_self_pos.mpr h2
    nlinarith [sq_nonneg (o.x - v.x), sq_nonneg (o.z - v.z)]
  · have h2 : o.z - v.z ≠ 0 := sub_ne_zero.mpr (Ne.symm hz)
    have h3 : 0 < (o.z - v.z) ^ 2 := by
      rw [sq]
      exact mul_self_pos.mpr h2
    nlinarith [sq_nonneg (o.x - v.x), sq_nonneg (o.y - v.y)]

/-- C8 (amended): for every registered cell set whose distinct cells
occupy pairwise-distinct positions, the label of every emitted edge is one
of the six labels `above`, `below`, `east`, `west`, `north`, `south`; a
pair of distinct cells at coincident positions instead yields the seventh
source label `'same'`, contradicting the claim as stated. -/
theorem directions_in_six (vs : List Voxel)
    (h : ∀ i j : Fin vs.length, (i : ℕ) ≠ (j : ℕ) →
      (vs.get i).x ≠ (vs.get j).x ∨ (vs.get i).y ≠ (vs.get j).y ∨
        (vs.get i).z ≠ (vs.get j).z) :
    ∀ e ∈ neighbor_relationships vs,
      e.direction = Direction.above ∨ e.direction = Direction.below ∨
      e.direction = Direction.east ∨ e.direction = Direction.west ∨
      e.direction = Direction.north ∨ e.direction = Direction.south := by
  intro e he
  obtain ⟨i, j, hij, hcheck⟩ := mem_neighbor_relationships.mp he
  rw [neighbor_check_eq_some] at hcheck
  obtain ⟨-, rfl⟩ := hcheck
  have hpos := sq_sum_pos_of_coord_diff (h i j hij)
  exact determine_direction_mem_six (ne_of_gt (Real.sqrt_pos.mpr hpos))

/-- Witness for the amended C8 at the demo pair with distinct positions,
instantiated at the emitted east edge. -/
theorem directions_in_six_witness :
    (⟨"a", "b", Direction.east, 1⟩ : NeighborEdge).direction = Direction.above ∨
    (⟨"a", "b", Direction.east, 1⟩ : NeighborEdge).direction = Direction.below ∨
    (⟨"a", "b", Direction.east, 1⟩ : NeighborEdge).direction = Direction.east ∨
    (⟨"a", "b", Direction.east, 1⟩ : NeighborEdge).direction = Direction.west ∨
    (⟨"a", "b", Direction.east, 1⟩ : NeighborEdge).direction = Direction.north ∨
    (⟨"a", "b", Direction.east, 1⟩ : NeighborEdge).direction = Direction.south :=
  directions_in_six [vA, vB]
    (by intro i j hij; fin_cases i <;> fin_cases j <;> simp_all [vA, vB])
    ⟨"a", "b", Direction.east, 1⟩ (by rw [nr_demo_AB]; simp)

/-- Counterexample to C8 as stated: two distinct cells at coincident
positions emit an edge whose label is `'same'`, which is none of the six
claimed labels. -/
theorem direction_same_emitted :
    (⟨"a", "b", Direction.same, 0⟩ : NeighborEdge) ∈
      neighbor_relationships [vA, vB0] ∧
    ¬(Direction.same = Direction.above ∨ Direction.same = Direction.below ∨
      Direction.same = Direction.east ∨ Direction.same = Direction.west ∨
      Direction.same = Direction.north ∨ Direction.same = Direction.south) := by
  refine ⟨?_, by decide⟩
  rw [nr_demo_AB0]
  simp

/-- C9 (amended): the run summary reports the total number of emitted
edges, and an average computed as that edge count divided by the
hard-coded literal `16116` — which coincides with edges divided by the
number of cells actually processed only when exactly `16116` cells were
collected; neither the processed-cell count nor a skipped-record count
appears in the summary. -/
theorem run_summary_reports (layers : List (List RhinoObject)) :
    (run layers).summary.total_relationships =
      (run layers).relationships.length ∧
    (run layers).summary.avg_neighbors_per_voxel =
      ((run layers).relationships.length : ℝ) / 16116 ∧
    ((collect_all_voxels layers).length = 16116 →
      (run layers).summary.avg_neighbors_per_voxel =
        ((run layers).relationships.length : ℝ) /
          ((collect_all_voxels layers).length : ℝ)) := by
  refine ⟨rfl, rfl, ?_⟩
  intro h
  rw [h, show (((16116 : ℕ)) : ℝ) = (16116 : ℝ) by norm_num]
  rfl

/-- Witness for the amended C9 at an input with exactly 16116 collected
cells, where the reported average does equal edges per processed cell. -/
theorem run_summary_reports_witness :
    (collect_all_voxels [List.replicate 16116 objA]).length = 16116 ∧
    (run [List.replicate 16116 objA]).summary.avg_neighbors_per_voxel =
      ((run [List.replicate 16116 objA]).relationships.length : ℝ) /
        ((collect_all_voxels [List.replicate 16116 objA]).length : ℝ) := by
  have hlen : (collect_all_voxels [List.replicate 16116 objA]).length = 16116 := by
    rw [collect_all_single, collect_layer_replicate_objA, List.length_replicate]
  exact ⟨hlen, (run_summary_reports [List.replicate 16116 objA]).2.2 hlen⟩

/-- Counterexample to C9 as stated: a run processing two cells and
emitting two edges reports an average of `2 / 16116`, not the claimed
`2 / 2` edges per processed cell. -/
theorem summary_average_hardcoded :
    (run [[objA, objB]]).summary.avg_neighbors_per_voxel ≠
      ((run [[objA, objB]]).relationships.length : ℝ) /
        ((collect_all_voxels [[objA, objB]]).length : ℝ) := by
  have hrel : (run [[objA, objB]]).relationships =
      neighbor_relationships [vA, vB] := by
    simp only [run]
    rw [collect_demo_AB]
  have hsum : (run [[objA, objB]]).summary.avg_neighbors_per_voxel =
      ((neighbor_relationships [vA, vB]).length : ℝ) / 16116 := by
    simp only [run, run_summary]
    rw [collect_demo_AB]
  rw [hsum, hrel, collect_demo_AB, nr_demo_AB]
  simp only [List.length_cons, List.length_nil]
  norm_num

/-- C10: the classifier is scale-invariant — scaling a displacement and
its distance by any positive factor leaves the returned label unchanged. -/
theorem direction_scale_invariant (dx dy dz distance c : ℝ)
    (hd : 0 < distance) (hc : 0 < c) :
    determine_direction (c * dx) (c * dy) (c * dz) (c * distance) =
      determine_direction dx dy dz distance := by
  have hcd : c * distance ≠ 0 := ne_of_gt (mul_pos hc hd)
  rw [determine_direction_pos_cases hcd,
    determine_direction_pos_cases (ne_of_gt hd)]
  have habs : ∀ t : ℝ, |c * t| / (c * distance) = |t| / distance := by
    intro t
    rw [abs_mul, abs_of_pos hc, mul_div_mul_left _ _ (ne_of_gt hc)]
  have hsign : ∀ t : ℝ, (0 < c * t) = (0 < t) := by
    intro t
    refine propext ⟨fun h => ?_, fun h => mul_pos hc h⟩
    by_contra hng
    push_neg at hng
    nlinarith
  rw [habs, habs, habs]
  simp only [gt_iff_lt, hsign]

/-- Witness for C10 at the displacement `(1, 0, 0)` scaled by `2`. -/
theorem direction_scale_invariant_witness :
    (0:ℝ) < 1 ∧ (0:ℝ) < 2 ∧
    determine_direction (2 * 1) (2 * 0) (2 * 0) (2 * 1) =
      determine_direction 1 0 0 1 :=
  ⟨by norm_num, by norm_num,
    direction_scale_invariant 1 0 0 1 2 (by norm_num) (by norm_num)⟩
